import Mathlib

/-!
Shallow embedding of `src/backend/src/common/workflow_executor.py`:
the step-handler layer, the interpreter loop of
`WorkflowExecutor.execute_workflow`, and `WorkflowExecutor.resume_workflow`.

Python dictionaries with string keys are modelled as association lists
(`List (String × Value)`); mutation of `context.entity` is modelled by
explicit state passing (each handler returns the updated entity).  External
collaborators (the compliance-DSL evaluator, the delivery service, the
policy table, `exec`, the wall clock) are oracles gathered in `Env`;
a raised Python exception is modelled as `Except.error msg` where `msg`
stands for `str(e)`.  The potentially unbounded `while` loop of
`execute_workflow` is modelled with explicit fuel: `none` means the loop
has not finished within the given fuel.
-/

/-- A Python value as it occurs in entity data, step configs and step
results: strings, booleans, integers, `None`, string-keyed dicts and
lists.  Dict keys are modelled as strings (every dict the executor
touches is JSON-like and string-keyed; a non-string tag key is modelled
by its string rendering, which never merges states any claim below
distinguishes). -/
inductive Value where
  | str : String → Value
  | boolV : Bool → Value
  | intV : Int → Value
  | noneV : Value
  | dict : List (String × Value) → Value
  | list : List Value → Value
deriving Repr

/-- The association-list dictionary type used for entities, configs and
step-result maps. -/
abbrev Dict := List (String × Value)

/-- `d.get(k)` on a Python dict: first binding of `k`. -/
def alistGet {α : Type} (d : List (String × α)) (k : String) : Option α :=
  (d.find? (fun p => p.1 = k)).map (·.2)

/-- `d.get(k, default)`. -/
def alistGetD {α : Type} (d : List (String × α)) (k : String) (dflt : α) : α :=
  (alistGet d k).getD dflt

/-- `d[k] = v` on a Python dict: replace the binding in place if the key
exists, else append it (Python dicts keep insertion order). -/
def alistSet {α : Type} (d : List (String × α)) (k : String) (v : α) :
    List (String × α) :=
  if d.any (fun p => p.1 = k) then
    d.map (fun p => if p.1 = k then (k, v) else p)
  else d ++ [(k, v)]

/-- `del d[k]` on a Python dict. -/
def alistDel {α : Type} (d : List (String × α)) (k : String) :
    List (String × α) :=
  d.filter (fun p => ¬ p.1 = k)

/-- `k in d` for a Python dict. -/
def alistHas {α : Type} (d : List (String × α)) (k : String) : Bool :=
  d.any (fun p => p.1 = k)

mutual
/-- Python `==` on values (used for `x in someList`).  Cross-type
comparisons are `False`, as in Python for the shapes that occur here. -/
def Value.beq : Value → Value → Bool
  | .str a, .str b => a = b
  | .boolV a, .boolV b => a = b
  | .intV a, .intV b => a = b
  | .noneV, .noneV => true
  | .dict a, .dict b => beqDict a b
  | .list a, .list b => beqList a b
  | _, _ => false

def beqDict : List (String × Value) → List (String × Value) → Bool
  | [], [] => true
  | (k₁, v₁) :: r₁, (k₂, v₂) :: r₂ =>
      (k₁ = k₂ : Bool) && Value.beq v₁ v₂ && beqDict r₁ r₂
  | _, _ => false

def beqList : List Value → List Value → Bool
  | [], [] => true
  | a :: r₁, b :: r₂ => Value.beq a b && beqList r₁ r₂
  | _, _ => false
end

mutual
/-- Python `repr` of a value (as used when a value is interpolated into
an f-string inside a container). -/
def Value.pyRepr : Value → String
  | .str s => "\x27" ++ s ++ "\x27"
  | .boolV true => "True"
  | .boolV false => "False"
  | .intV n => toString n
  | .noneV => "None"
  | .dict d => "\x7b" ++ pyReprDict d ++ "\x7d"
  | .list l => "[" ++ pyReprList l ++ "]"

def pyReprDict : List (String × Value) → String
  | [] => ""
  | [(k, v)] => "\x27" ++ k ++ "\x27: " ++ Value.pyRepr v
  | (k, v) :: rest =>
      "\x27" ++ k ++ "\x27: " ++ Value.pyRepr v ++ ", " ++ pyReprDict rest

def pyReprList : List Value → String
  | [] => ""
  | [v] => Value.pyRepr v
  | v :: rest => Value.pyRepr v ++ ", " ++ pyReprList rest
end

/-- Python `str` of a value (f-string interpolation). -/
def Value.pyStr : Value → String
  | .str s => s
  | v => v.pyRepr

/-- Python type name, used to render `TypeError` texts. -/
def Value.typeName : Value → String
  | .str _ => "str"
  | .boolV _ => "bool"
  | .intV _ => "int"
  | .noneV => "NoneType"
  | .dict _ => "dict"
  | .list _ => "list"

/-- Python truthiness of a value. -/
def pyTruthy : Value → Bool
  | .str s => s ≠ ""
  | .boolV b => b
  | .intV n => n ≠ 0
  | .noneV => false
  | .dict d => ¬ d.isEmpty
  | .list l => ¬ l.isEmpty

/-- Python truthiness of an `Optional[str]`: `None` and `""` are falsy. -/
def pyTruthyStr : Option String → Bool
  | none => false
  | some s => s ≠ ""

/-- `a or b` on `Optional[str]` values: `a` when truthy, else `b`. -/
def pyOrStr (a b : Option String) : Option String :=
  if pyTruthyStr a then a else b

/-- `a or b` on optional values (e.g. `entity.get(x) or entity.get(y)`). -/
def pyOrVal (a b : Option Value) : Option Value :=
  match a with
  | some v => if pyTruthy v then some v else b
  | none => b

/-- An `Optional[str]` rendered as a `Value` when stored into a dict. -/
def optStrToValue : Option String → Value
  | none => .noneV
  | some s => .str s

/-- Substring test, Python `sub in s` for strings (`"" in s` is `True`). -/
def containsSub (sub s : String) : Bool :=
  if sub = "" then true else (s.splitOn sub).length > 1

/-- Python `needle in container` where `needle` is a string literal.
Dicts test key membership, strings test substrings, lists test element
equality; other types raise `TypeError`. -/
def pyInStr (needle : String) : Value → Except String Bool
  | .str s => .ok (containsSub needle s)
  | .list l => .ok (l.any (fun v => Value.beq v (.str needle)))
  | .dict d => .ok (alistHas d needle)
  | v => .error ("argument of type \x27" ++ v.typeName ++ "\x27 is not iterable")

/-- Python `key in container` for an arbitrary key value. -/
def pyInVal (key : Value) : Value → Except String Bool
  | .dict d =>
      match key with
      | .str k => .ok (alistHas d k)
      | _ => .ok false
  | .str s =>
      match key with
      | .str k => .ok (containsSub k s)
      | v => .error ("\x27in <string>\x27 requires string as left operand, not "
          ++ v.typeName)
  | .list l => .ok (l.any (fun v => Value.beq v key))
  | v => .error ("argument of type \x27" ++ v.typeName ++ "\x27 is not iterable")

/-- `", ".join(items)`: every item must be a `str`, else `TypeError`. -/
def pyJoin (sep : String) (items : List Value) : Except String String :=
  match items with
  | [] => .ok ""
  | [.str s] => .ok s
  | .str s :: rest => do
      let r ← pyJoin sep rest
      .ok (s ++ sep ++ r)
  | v :: _ =>
      .error ("sequence item: expected str instance, " ++ v.typeName ++ " found")

/-! ## Data model (`StepContext`, `StepResult`, registry inputs) -/

/-- `StepContext` from the source: the per-run mutable bag threaded
through every handler.  `entity` mutation is modelled by handlers
returning the updated entity. -/
structure StepContext where
  entity : Dict
  entity_type : String
  entity_id : String
  entity_name : Option String
  user_email : Option String
  trigger_context : Option Value
  execution_id : String
  workflow_id : String
  workflow_name : String
  step_results : Dict
deriving Repr

/-- `StepResult` from the source.  `message` holds the Python value
rendered to a string when a handler stores a non-string (observationally
equivalent downstream, where it is only compared for truthiness and
persisted). -/
structure StepResult where
  passed : Bool
  message : Option String := none
  data : Option Value := none
  error : Option String := none
  blocking : Bool := false
deriving Repr

/-- A `CompliancePolicyDb` row as read by `PolicyCheckStepHandler`. -/
structure Policy where
  name : String
  rule : String
  is_active : Bool
  failure_message : Option String
  severity : Value
deriving Repr

/-- The aggregate result object returned by
`DeliveryService.deliver` (external collaborator): per-mode success
flags, the `all_success` / `any_success` aggregates, the `errors` list
and the value of `to_dict()`. -/
structure DeliveryResults where
  results : List Bool
  all_success : Bool
  any_success : Bool
  errors : List String
  to_dict : Value
deriving Repr

/-- The `DeliveryPayload` the delivery handler builds from context. -/
structure DeliveryPayloadM where
  change_type : String
  entity_type : String
  entity_id : String
  data : Dict
  user : Option String
deriving Repr

/-- Oracles for the external collaborators and ambient effects consumed
by the handlers.  `Except.error e` models a raised Python exception with
`str(e) = e`. -/
structure Env where
  /-- `evaluate_rule_on_object(rule, entity) -> (passed, message)`. -/
  evalRule : Value → Dict → Except String (Bool × String)
  /-- The `Lexer` / `Parser` / `Evaluator` pipeline of the conditional
  handler applied to `condition` and the entity, returning the raw
  evaluation result. -/
  evalCondition : Value → Dict → Except String Value
  /-- `exec(code, ...)` followed by `local_vars.get("result")`: `none`
  inside `ok` means the script did not bind `result`.  (The source builds
  a `safe_globals` dict but never passes it to `exec`.) -/
  runPython : Value → Except String (Option Value)
  /-- `self._db.get(CompliancePolicyDb, policy_id)`. -/
  getPolicy : Value → Except String (Option Policy)
  /-- `get_delivery_service().deliver(payload, modes)`; `none` models the
  `RuntimeError` of an uninitialized service. -/
  deliver : Option (DeliveryPayloadM → Option (List String) → Except String DeliveryResults)
  /-- `datetime.utcnow().isoformat()`. -/
  now : String
  /-- The id the execution repository assigns to the new run. -/
  freshExecutionId : String

/-! ## Step handlers -/

/-- Shorthand for the `StepResult(passed=False, error=...)` shape every
`except` clause produces. -/
def errResult (e : String) : StepResult :=
  { passed := false, error := some e }

/-- `ValidationStepHandler.execute`. -/
def validationExecute (env : Env) (config : Dict) (ctx : StepContext) :
    StepResult × Dict :=
  let rule := alistGetD config "rule" (.str "")
  if ¬ pyTruthy rule then (errResult "No rule configured", ctx.entity)
  else
    match env.evalRule rule ctx.entity with
    | .ok (passed, message) =>
        ({ passed := passed, message := some message,
           data := some (.dict [("rule", rule)]) }, ctx.entity)
    | .error e => (errResult e, ctx.entity)

/-- `ApprovalStepHandler._resolve_approvers`. -/
def resolveApprovers (approvers : Value) (ctx : StepContext) :
    Except String (List Value) :=
  if Value.beq approvers (.str "domain_owners") then
    .ok [.str "domain-owner@example.com"]
  else if Value.beq approvers (.str "project_owners") then
    .ok [.str "project-owner@example.com"]
  else if Value.beq approvers (.str "requester") then
    .ok (if pyTruthyStr ctx.user_email then [.str (ctx.user_email.getD "")] else [])
  else do
    let hasAt ← pyInStr "@" approvers
    if hasAt then
      match approvers with
      | .str s => .ok ((s.splitOn ",").map (fun e => .str e.trim))
      | v => .error ("\x27" ++ v.typeName ++ "\x27 object has no attribute \x27split\x27")
    else .ok [approvers]

/-- `ApprovalStepHandler.execute`: always `blocking=True` on success. -/
def approvalExecute (config : Dict) (ctx : StepContext) :
    StepResult × Dict :=
  let approvers := alistGetD config "approvers" (.str "")
  let timeout_days := alistGetD config "timeout_days" (.intV 7)
  let require_all := alistGetD config "require_all" (.boolV false)
  if ¬ pyTruthy approvers then (errResult "No approvers configured", ctx.entity)
  else
    match resolveApprovers approvers ctx with
    | .error e => (errResult e, ctx.entity)
    | .ok resolved =>
        match pyJoin ", " resolved with
        | .error e => (errResult e, ctx.entity)
        | .ok joined =>
            ({ passed := true,
               message := some ("Approval requested from: " ++ joined),
               data := some (.dict
                 [("approvers", .list resolved),
                  ("timeout_days", timeout_days),
                  ("require_all", require_all),
                  ("status", .str "pending")]),
               blocking := true }, ctx.entity)

/-- `NotificationStepHandler._resolve_recipients`. -/
def resolveRecipients (recipients : Value) (ctx : StepContext) :
    Except String (List Value) :=
  if Value.beq recipients (.str "requester") then
    .ok (if pyTruthyStr ctx.user_email then [.str (ctx.user_email.getD "")] else [])
  else if Value.beq recipients (.str "owner") then
    .ok (match alistGet ctx.entity "owner" with
         | some owner => if pyTruthy owner then [owner] else []
         | none => [])
  else do
    let hasAt ← pyInStr "@" recipients
    if hasAt then
      match recipients with
      | .str s => .ok ((s.splitOn ",").map (fun e => .str e.trim))
      | v => .error ("\x27" ++ v.typeName ++ "\x27 object has no attribute \x27split\x27")
    else .ok [recipients]

/-- Render an `Optional[str]` inside an f-string (`None` prints as
`None`). -/
def fmtOptStr : Option String → String
  | none => "None"
  | some s => s

/-- `NotificationStepHandler._get_template_message`. -/
def templateMessage (template : Value) (ctx : StepContext) : String :=
  let en := fmtOptStr ctx.entity_name
  match template with
  | .str "validation_failed" =>
      "Validation failed for " ++ ctx.entity_type ++ " \x27" ++ en ++ "\x27"
  | .str "validation_passed" =>
      "Validation passed for " ++ ctx.entity_type ++ " \x27" ++ en ++ "\x27"
  | .str "product_approved" =>
      "Data product \x27" ++ en ++ "\x27 has been approved"
  | .str "product_rejected" =>
      "Data product \x27" ++ en ++ "\x27 has been rejected"
  | .str "approval_requested" =>
      "Approval requested for " ++ ctx.entity_type ++ " \x27" ++ en ++ "\x27"
  | _ => "Workflow notification for " ++ en

/-- `NotificationStepHandler.execute`. -/
def notificationExecute (config : Dict) (ctx : StepContext) :
    StepResult × Dict :=
  let recipients := alistGetD config "recipients" (.str "")
  let template := alistGetD config "template" (.str "")
  let custom_message := alistGet config "custom_message"
  if ¬ pyTruthy recipients then (errResult "No recipients configured", ctx.entity)
  else
    match resolveRecipients recipients ctx with
    | .error e => (errResult e, ctx.entity)
    | .ok resolved =>
        let message : Value :=
          match custom_message with
          | some cm => if pyTruthy cm then cm else .str (templateMessage template ctx)
          | none => .str (templateMessage template ctx)
        match pyJoin ", " resolved with
        | .error e => (errResult e, ctx.entity)
        | .ok joined =>
            ({ passed := true,
               message := some ("Notification sent to: " ++ joined),
               data := some (.dict
                 [("recipients", .list resolved),
                  ("template", template),
                  ("message", message)]) }, ctx.entity)

/-- A dict key as Python stores `entity["tags"][key]`: string keys keep
their text; a non-string key is modelled by its rendering (see `Value`
doc comment). -/
def tagKeyStr : Value → String
  | .str s => s
  | v => v.pyRepr

/-- `AssignTagStepHandler._resolve_value_source`. -/
def resolveValueSource (source : Value) (env : Env) (ctx : StepContext) :
    Option Value :=
  if Value.beq source (.str "current_user") then
    ctx.user_email.map .str
  else if Value.beq source (.str "project_name") then
    pyOrVal (alistGet ctx.entity "project_name") (alistGet ctx.entity "project_id")
  else if Value.beq source (.str "entity_name") then
    ctx.entity_name.map .str
  else if Value.beq source (.str "timestamp") then
    some (.str env.now)
  else none

/-- Truthiness of the resolved tag value (`if not resolved_value`). -/
def pyTruthyOptVal : Option Value → Bool
  | none => false
  | some v => pyTruthy v

/-- The value resolution step of `AssignTagStepHandler.execute`: use the
dynamic source when `value_source` is truthy, else the literal
`config["value"]`. -/
def assignResolved (env : Env) (config : Dict) (ctx : StepContext) :
    Option Value :=
  match alistGet config "value_source" with
  | some vs =>
      if pyTruthy vs then resolveValueSource vs env ctx
      else alistGet config "value"
  | none => alistGet config "value"

/-- `AssignTagStepHandler.execute`.  The only entity mutation is
`context.entity["tags"][key] = resolved` (creating the `tags` dict when
absent); a pre-existing non-dict `tags` value makes the item assignment
raise `TypeError`, caught by the handler with the entity unchanged. -/
def assignTagExecute (env : Env) (config : Dict) (ctx : StepContext) :
    StepResult × Dict :=
  let key := alistGetD config "key" (.str "")
  if ¬ pyTruthy key then (errResult "No tag key configured", ctx.entity)
  else
    let resolved : Option Value := assignResolved env config ctx
    if ¬ pyTruthyOptVal resolved then
      (errResult "Could not resolve tag value", ctx.entity)
    else
      let rv := resolved.getD .noneV
      match alistGet ctx.entity "tags" with
      | some (.dict d) =>
          ({ passed := true,
             message := some ("Assigned tag " ++ key.pyStr ++ "=" ++ rv.pyStr),
             data := some (.dict [("key", key), ("value", rv)]) },
           alistSet ctx.entity "tags" (.dict (alistSet d (tagKeyStr key) rv)))
      | some v =>
          (errResult ("\x27" ++ v.typeName ++ "\x27 object does not support item assignment"),
           ctx.entity)
      | none =>
          ({ passed := true,
             message := some ("Assigned tag " ++ key.pyStr ++ "=" ++ rv.pyStr),
             data := some (.dict [("key", key), ("value", rv)]) },
           alistSet ctx.entity "tags" (.dict [(tagKeyStr key, rv)]))

/-- `del container[key]` for the `del entity["tags"][key]` statement:
only dicts support string-keyed deletion; strings and lists raise
`TypeError` for the key shapes that pass the preceding `in` test except
for in-range integer list indices, which delete positionally. -/
def pyDelItem (container : Value) (key : Value) : Except String Value :=
  match container, key with
  | .dict d, .str k => .ok (.dict (alistDel d k))
  | .dict _, _ => .error "dict key not found"
  | .str _, _ => .error "\x27str\x27 object does not support item deletion"
  | .list l, .intV i =>
      let n : Int := Int.ofNat l.length
      let j : Int := if i < 0 then i + n else i
      if 0 ≤ j ∧ j < n then .ok (.list (l.eraseIdx j.toNat))
      else .error "list assignment index out of range"
  | .list l, .boolV b =>
      let i : Int := if b then 1 else 0
      if i < Int.ofNat l.length then .ok (.list (l.eraseIdx i.toNat))
      else .error "list assignment index out of range"
  | .list _, _ => .error "list indices must be integers or slices, not str"
  | v, _ => .error ("\x27" ++ v.typeName ++ "\x27 object does not support item deletion")

/-- `RemoveTagStepHandler.execute`: delete the key from the entity tag
dict when `"tags" in entity and key in entity["tags"]`; a no-op success
otherwise; `TypeError`s raised by the `in` test or the deletion are
caught with the entity unchanged. -/
def removeTagExecute (config : Dict) (ctx : StepContext) :
    StepResult × Dict :=
  let key := alistGetD config "key" (.str "")
  if ¬ pyTruthy key then (errResult "No tag key configured", ctx.entity)
  else
    let okResult : StepResult :=
      { passed := true,
        message := some ("Removed tag " ++ key.pyStr),
        data := some (.dict [("key", key)]) }
    match alistGet ctx.entity "tags" with
    | none => (okResult, ctx.entity)
    | some tags =>
        match pyInVal key tags with
        | .error e => (errResult e, ctx.entity)
        | .ok false => (okResult, ctx.entity)
        | .ok true =>
            match pyDelItem tags key with
            | .error e => (errResult e, ctx.entity)
            | .ok tags2 => (okResult, alistSet ctx.entity "tags" tags2)

/-- `ConditionalStepHandler.execute`. -/
def conditionalExecute (env : Env) (config : Dict) (ctx : StepContext) :
    StepResult × Dict :=
  let condition := alistGetD config "condition" (.str "")
  if ¬ pyTruthy condition then (errResult "No condition configured", ctx.entity)
  else
    match env.evalCondition condition ctx.entity with
    | .ok result =>
        ({ passed := pyTruthy result,
           message := some ("Condition evaluated to: " ++ result.pyStr),
           data := some (.dict [("condition", condition), ("result", result)]) },
         ctx.entity)
    | .error e => (errResult e, ctx.entity)

/-- `ScriptStepHandler._execute_python`: run the code, read the
`result` binding (default `{"passed": True}`), and coerce its shape. -/
def scriptExecutePython (env : Env) (code : Value) : StepResult :=
  match env.runPython code with
  | .error e => errResult e
  | .ok r =>
      let result := r.getD (.dict [("passed", .boolV true)])
      match result with
      | .dict d =>
          { passed := pyTruthy (alistGetD d "passed" (.boolV true)),
            message :=
              (match alistGet d "message" with
               | none => none
               | some .noneV => none
               | some v => some v.pyStr),
            data := alistGet d "data" }
      | v => { passed := pyTruthy v }

/-- `ScriptStepHandler._execute_sql`: an intentionally unimplemented
stub in the source. -/
def scriptExecuteSql (code : Value) : StepResult :=
  { passed := true,
    message := some "SQL execution not yet implemented",
    data := some (.dict [("sql", code)]) }

/-- `ScriptStepHandler.execute`. -/
def scriptExecute (env : Env) (config : Dict) (ctx : StepContext) :
    StepResult × Dict :=
  let language := alistGetD config "language" (.str "python")
  let code := alistGetD config "code" (.str "")
  if ¬ pyTruthy code then (errResult "No code configured", ctx.entity)
  else
    if Value.beq language (.str "python") then
      (scriptExecutePython env code, ctx.entity)
    else if Value.beq language (.str "sql") then
      (scriptExecuteSql code, ctx.entity)
    else
      (errResult ("Unsupported language: " ++ language.pyStr), ctx.entity)

/-- `PassStepHandler.execute`. -/
def passExecute (ctx : StepContext) : StepResult × Dict :=
  ({ passed := true, message := some "Workflow completed successfully" },
   ctx.entity)

/-- `FailStepHandler.execute`. -/
def failExecute (config : Dict) (ctx : StepContext) : StepResult × Dict :=
  let message := alistGetD config "message" (.str "Workflow failed")
  ({ passed := false, message := some message.pyStr }, ctx.entity)

/-- `PolicyCheckStepHandler.execute`. -/
def policyCheckExecute (env : Env) (config : Dict) (ctx : StepContext) :
    StepResult × Dict :=
  let policy_id := alistGetD config "policy_id" (.str "")
  if ¬ pyTruthy policy_id then (errResult "No policy_id configured", ctx.entity)
  else
    match env.getPolicy policy_id with
    | .error e =>
        ({ passed := false, error := some e,
           data := some (.dict [("policy_id", policy_id)]) }, ctx.entity)
    | .ok none =>
        ({ passed := false,
           error := some ("Policy not found: " ++ policy_id.pyStr),
           data := some (.dict [("policy_id", policy_id)]) }, ctx.entity)
    | .ok (some policy) =>
        if ¬ policy.is_active then
          ({ passed := true,
             message := some ("Policy \x27" ++ policy.name ++ "\x27 is inactive, skipped"),
             data := some (.dict
               [("policy_id", policy_id),
                ("policy_name", .str policy.name),
                ("skipped", .boolV true)]) }, ctx.entity)
        else
          match env.evalRule (.str policy.rule) ctx.entity with
          | .error e =>
              ({ passed := false, error := some e,
                 data := some (.dict [("policy_id", policy_id)]) }, ctx.entity)
          | .ok (passed, technical_message) =>
              let message :=
                if passed then technical_message
                else if pyTruthyStr policy.failure_message then
                  policy.failure_message.getD "" ++ "\n\nTechnical: " ++ technical_message
                else technical_message
              ({ passed := passed, message := some message,
                 data := some (.dict
                   [("policy_id", policy_id),
                    ("policy_name", .str policy.name),
                    ("rule", .str policy.rule),
                    ("severity", policy.severity),
                    ("failure_message", optStrToValue policy.failure_message),
                    ("technical_message", .str technical_message)]) }, ctx.entity)

/-- Modelled from the spec: the `DeliveryChangeType` enum of the external
`delivery_service` module (not under `src/`); its docstring names
`grant`, `revoke`, `tag_assign`.  An unrecognized value raises
`ValueError`, which the handler maps to the `GRANT` default. -/
def parseChangeType (v : Value) : String :=
  match v with
  | .str "grant" => "grant"
  | .str "revoke" => "revoke"
  | .str "tag_assign" => "tag_assign"
  | _ => "grant"

/-- Modelled from the spec: the `DeliveryMode` enum of the external
`delivery_service` module (`direct`, `indirect`, `manual`); an
unrecognized element raises `ValueError`, which the handler logs and
skips. -/
def parseMode (v : Value) : Option String :=
  match v with
  | .str "direct" => some "direct"
  | .str "indirect" => some "indirect"
  | .str "manual" => some "manual"
  | _ => none

/-- `for m in modes_str` — the iterable views Python gives: list
elements, string characters, dict keys; other types raise `TypeError`. -/
def pyIterate : Value → Except String (List Value)
  | .list l => .ok l
  | .str s => .ok (s.toList.map (fun c => .str (String.mk [c])))
  | .dict d => .ok (d.map (fun p => .str p.1))
  | v => .error ("\x27" ++ v.typeName ++ "\x27 object is not iterable")

/-- `DeliveryStepHandler.execute`. -/
def deliveryExecute (env : Env) (config : Dict) (ctx : StepContext) :
    StepResult × Dict :=
  let change_type_str := alistGetD config "change_type" (.str "grant")
  let modes_str := alistGetD config "modes" (.list [])
  let change_type := parseChangeType change_type_str
  let modesE : Except String (Option (List String)) :=
    if pyTruthy modes_str then
      match pyIterate modes_str with
      | .error e => .error e
      | .ok items => .ok (some (items.filterMap parseMode))
    else .ok none
  match modesE with
  | .error e => (errResult e, ctx.entity)
  | .ok modes =>
      match alistGetD config "data" (.dict []) with
      | .dict extra =>
          let payload : DeliveryPayloadM :=
            { change_type := change_type,
              entity_type := ctx.entity_type,
              entity_id := ctx.entity_id,
              data := extra.foldl (fun d p => alistSet d p.1 p.2)
                        [("entity", .dict ctx.entity)],
              user := ctx.user_email }
          match env.deliver with
          | none => (errResult "Delivery service not initialized", ctx.entity)
          | some deliver =>
              match deliver payload modes with
              | .error e => (errResult e, ctx.entity)
              | .ok results =>
                  if results.all_success then
                    ({ passed := true,
                       message := some ("Delivered via " ++
                         toString results.results.length ++ " mode(s)"),
                       data := some results.to_dict }, ctx.entity)
                  else if results.any_success then
                    ({ passed := true,
                       message := some ("Partially delivered (" ++
                         toString (results.results.filter (· = true)).length ++ "/" ++
                         toString results.results.length ++ " modes succeeded)"),
                       data := some results.to_dict }, ctx.entity)
                  else
                    ({ passed := false,
                       error := some (if ¬ results.errors.isEmpty then
                           String.intercalate "; " results.errors
                         else "All delivery modes failed"),
                       data := some results.to_dict }, ctx.entity)
      | v => (errResult ("argument after ** must be a mapping, not " ++ v.typeName),
              ctx.entity)

/-! ## Dispatch (`WorkflowExecutor.HANDLERS` and `_execute_step`) -/

/-- The closed handler registry `WorkflowExecutor.HANDLERS`, as the
dispatch map from `step_type` strings to handler bodies (each handler is
constructed with the step config and run on the context). -/
def handlerFor (env : Env) (kind : String) :
    Option (Dict → StepContext → StepResult × Dict) :=
  match kind with
  | "validation" => some (validationExecute env)
  | "approval" => some approvalExecute
  | "notification" => some notificationExecute
  | "assign_tag" => some (assignTagExecute env)
  | "remove_tag" => some removeTagExecute
  | "conditional" => some (conditionalExecute env)
  | "script" => some (scriptExecute env)
  | "pass" => some (fun _ ctx => passExecute ctx)
  | "fail" => some failExecute
  | "policy_check" => some (policyCheckExecute env)
  | "delivery" => some (deliveryExecute env)
  | _ => none

/-- One step in a workflow definition (`WorkflowStep`): the database row
id `id`, the workflow-local `step_id`, the kind string (the source
normalizes `step.step_type` to its string value), the config dict and
the optional branch references. -/
structure WorkflowStep where
  id : String
  step_id : String
  step_type : String
  config : Option Dict
  on_pass : Option String
  on_fail : Option String
deriving Repr

/-- A workflow definition (`ProcessWorkflow`) as the interpreter reads
it. -/
structure ProcessWorkflow where
  id : String
  name : String
  steps : List WorkflowStep
deriving Repr

/-- `WorkflowExecutor._execute_step`: unknown step kinds become a
failed `StepOutcome` with the `Unknown step type` error; otherwise the
handler runs on `step.config or \x7b\x7d`.  Handlers model their own
`except` clauses, so the outer defensive `except` of the source is
unreachable here; the dispatch is a total function either way. -/
def executeStep (env : Env) (step : WorkflowStep) (ctx : StepContext) :
    StepResult × Dict :=
  match handlerFor env step.step_type with
  | none =>
      ({ passed := false, error := some ("Unknown step type: " ++ step.step_type) },
       ctx.entity)
  | some handler => handler (step.config.getD []) ctx

/-! ## The interpreter loop (`WorkflowExecutor.execute_workflow`) -/

/-- A durable `StepExecutionRecord` as the repository appends it
(`add_step_execution`): note the source passes `step.id` (the row id),
not `step.step_id`.  Wall-clock `duration_ms` is environmental and
modelled as `0`. -/
structure StepExecRecord where
  step_id : String
  status : String
  passed : Bool
  result_data : Option Value
  error_message : Option String
  duration_ms : Nat
deriving Repr

/-- The loop-owned mutable state of `execute_workflow`: the context, the
running tallies and the records appended so far. -/
structure LoopState where
  ctx : StepContext
  success_count : Nat
  failure_count : Nat
  records : List StepExecRecord
deriving Repr

/-- The record `add_step_execution` appends for a dispatched step. -/
def mkStepRecord (step : WorkflowStep) (result : StepResult) : StepExecRecord :=
  { step_id := step.id,
    status := if result.passed then "succeeded" else "failed",
    passed := result.passed,
    result_data := result.data,
    error_message := result.error,
    duration_ms := 0 }

/-- The `\x7bpassed, message, data\x7d` dict merged into
`context.step_results[step.step_id]`. -/
def stepResultValue (result : StepResult) : Value :=
  .dict [("passed", .boolV result.passed),
         ("message", optStrToValue result.message),
         ("data", result.data.getD .noneV)]

/-- One dispatch of the loop body up to the tallies (source lines
651-680): run the step, append its record, merge its outcome into
`step_results`, bump exactly one tally. -/
def stepAdvance (env : Env) (step : WorkflowStep) (st : LoopState) : LoopState :=
  let er := executeStep env step st.ctx
  let result := er.1
  { ctx := { st.ctx with
      entity := er.2,
      step_results := alistSet st.ctx.step_results step.step_id
        (stepResultValue result) },
    success_count := if result.passed then st.success_count + 1 else st.success_count,
    failure_count := if result.passed then st.failure_count else st.failure_count + 1,
    records := st.records ++ [mkStepRecord step result] }

/-- `outcome.passed ? step.on_pass : step.on_fail`. -/
def nextStepId (step : WorkflowStep) (result : StepResult) : Option String :=
  if result.passed then step.on_pass else step.on_fail

/-- How the `while` loop of `execute_workflow` ended:
`done status error_message state` for every exit that reaches the
post-loop finalization (falling out with the initial `RUNNING` status,
the `Step not found` break, or a terminal branch), and
`paused current_step_id state` for the blocking break that persists
`PAUSED` inside the loop. -/
inductive LoopExit where
  | done (status : String) (error_message : Option String) (st : LoopState)
  | paused (current_step_id : String) (st : LoopState)
deriving Repr

/-- The loop state carried by an exit. -/
def LoopExit.state : LoopExit → LoopState
  | .done _ _ st => st
  | .paused _ st => st

/-- The `while current_step_id:` loop of `execute_workflow` (source
lines 644-707), with explicit fuel; `none` means the loop is still
running after `fuel` iterations.  `current` is truthy when it is a
non-empty string, as in Python. -/
def execLoop (env : Env) (steps_by_id : List (String × WorkflowStep)) :
    Nat → Option String → LoopState → Option LoopExit
  | 0, _, _ => none
  | Nat.succ fuel, current, st =>
    if pyTruthyStr current then
      let cur := current.getD ""
      match alistGet steps_by_id cur with
      | none => some (.done "failed" (some ("Step not found: " ++ cur)) st)
      | some step =>
          let result := (executeStep env step st.ctx).1
          let st2 := stepAdvance env step st
          if result.blocking then some (.paused cur st2)
          else if pyTruthyStr (nextStepId step result) then
            execLoop env steps_by_id fuel (nextStepId step result) st2
          else
            some (.done (if result.passed then "succeeded" else "failed")
              (if result.passed then none
               else pyOrStr result.message result.error) st2)
    else some (.done "running" none st)

/-- Ghost observer: the number of step dispatches
(`self._execute_step` calls) the loop performs, by the same recursion as
`execLoop`. -/
def dispatchCount (env : Env) (steps_by_id : List (String × WorkflowStep)) :
    Nat → Option String → LoopState → Nat
  | 0, _, _ => 0
  | Nat.succ fuel, current, st =>
    if pyTruthyStr current then
      let cur := current.getD ""
      match alistGet steps_by_id cur with
      | none => 0
      | some step =>
          let result := (executeStep env step st.ctx).1
          if result.blocking then 1
          else if pyTruthyStr (nextStepId step result) then
            1 + dispatchCount env steps_by_id fuel (nextStepId step result)
                  (stepAdvance env step st)
          else 1
    else 0

/-- The durable `WorkflowExecution` as materialized after the run; the
creation-time fields (`id`, `workflow_id`, `triggered_by`,
`trigger_context`, `started_at`) are copied verbatim from the inputs
and omitted here.  `finished` models whether `finished_at` was set. -/
structure ExecutionRecord where
  status : String
  current_step_id : Option String
  success_count : Nat
  failure_count : Nat
  error_message : Option String
  finished : Bool
  step_executions : List StepExecRecord
deriving Repr

/-- The persistence at the end of `execute_workflow`: the blocking break
already persisted `PAUSED` with `current_step_id` and the tallies
(lines 683-693, no `finished_at`); every other exit runs the post-loop
`update_status` with the final status, tallies, `error_message` and a
`finished_at` timestamp (lines 710-719). -/
def finalize : LoopExit → ExecutionRecord
  | .paused cur st =>
      { status := "paused", current_step_id := some cur,
        success_count := st.success_count, failure_count := st.failure_count,
        error_message := none, finished := false,
        step_executions := st.records }
  | .done status err st =>
      { status := status, current_step_id := none,
        success_count := st.success_count, failure_count := st.failure_count,
        error_message := err, finished := true,
        step_executions := st.records }

/-- `steps_by_id = \x7bs.step_id: s for s in workflow.steps\x7d`. -/
def buildIndex (steps : List WorkflowStep) : List (String × WorkflowStep) :=
  steps.foldl (fun m s => alistSet m s.step_id s) []

/-- `WorkflowExecutor.execute_workflow`: create the execution record,
build the context from a copy of the entity (value semantics here; the
sharing the shallow `dict.copy()` creates is modelled separately by the
heap model below), index the steps, run the loop from
`workflow.steps[0].step_id`, finalize and materialize.  `none` means
the loop did not finish within `fuel` iterations. -/
def execute_workflow (fuel : Nat) (env : Env) (workflow : ProcessWorkflow)
    (entity : Dict) (entity_type entity_id : String)
    (entity_name user_email : Option String) (trigger_context : Option Value) :
    Option ExecutionRecord :=
  let context : StepContext :=
    { entity := entity,
      entity_type := entity_type,
      entity_id := entity_id,
      entity_name := entity_name,
      user_email := user_email,
      trigger_context := trigger_context,
      execution_id := env.freshExecutionId,
      workflow_id := workflow.id,
      workflow_name := workflow.name,
      step_results := [] }
  let steps_by_id := buildIndex workflow.steps
  let current : Option String :=
    match workflow.steps with
    | [] => none
    | s :: _ => some s.step_id
  (execLoop env steps_by_id fuel current
      { ctx := context, success_count := 0, failure_count := 0, records := [] }).map
    finalize

/-! ## Resume (`WorkflowExecutor.resume_workflow`) -/

/-- A stored `WorkflowExecutionDb` row as `workflow_execution_repo.get`
returns it (`status` is the persisted status string). -/
structure DbExecution where
  id : String
  workflow_id : String
  status : String
  current_step_id : Option String
  success_count : Nat
  failure_count : Nat
  error_message : Option String
  step_executions : List StepExecRecord
deriving Repr

/-- A stored workflow definition row as `process_workflow_repo.get`
returns it. -/
structure DbWorkflow where
  id : String
  name : String
deriving Repr

/-- The repository oracles `resume_workflow` consults. -/
structure ResumeDb where
  getExecution : String → Option DbExecution
  getWorkflow : String → Option DbWorkflow

/-- `WorkflowExecutor.resume_workflow`: `None` unless the execution
exists, is currently `paused`, and its workflow loads; past those guards
the source only converts the stored record back (the continuation is an
unimplemented `TODO`), so the stored execution is returned unchanged.
`step_result` and `result_data` are accepted and ignored, as in the
source. -/
def resume_workflow (db : ResumeDb) (execution_id : String)
    (step_result : Bool) (result_data : Option Value) : Option DbExecution :=
  match db.getExecution execution_id with
  | none => none
  | some db_execution =>
      if db_execution.status ≠ "paused" then none
      else
        match db.getWorkflow db_execution.workflow_id with
        | none => none
        | some _db_workflow => some db_execution

/-! ## Heap model for the entity copy (source lines 620-632, 250-254)

`execute_workflow` builds the context with `entity=entity.copy()` — a
shallow `dict.copy()` — and `AssignTagStepHandler` then mutates
`context.entity["tags"][key] = value` in place.  Value-level state
passing cannot express the sharing the shallow copy creates, so that
fragment is embedded against a tiny Python object heap: dict objects
live in numbered cells, and a value is a scalar or a reference to a
cell. -/

/-- A Python value from the heap model: a scalar string or a reference
to a dict object on the heap. -/
inductive PyVal where
  | str : String → PyVal
  | ref : Nat → PyVal
deriving Repr, DecidableEq

/-- A heap of dict objects: cells addressed by `Nat`, plus the next
fresh address. -/
structure Heap where
  cells : List (Nat × List (String × PyVal))
  nextAddr : Nat
deriving Repr

/-- The dict object stored at address `a`. -/
def heapGet (h : Heap) (a : Nat) : Option (List (String × PyVal)) :=
  (h.cells.find? (fun p => p.1 = a)).map (·.2)

/-- Overwrite the dict object at address `a`. -/
def heapSet (h : Heap) (a : Nat) (d : List (String × PyVal)) : Heap :=
  { h with cells := h.cells.map (fun p => if p.1 = a then (a, d) else p) }

/-- Allocate a fresh dict object. -/
def heapAlloc (h : Heap) (d : List (String × PyVal)) : Heap × Nat :=
  ({ cells := h.cells ++ [(h.nextAddr, d)], nextAddr := h.nextAddr + 1 },
   h.nextAddr)

/-- `d[k] = v` on a heap-model dict body. -/
def pdictSet (d : List (String × PyVal)) (k : String) (v : PyVal) :
    List (String × PyVal) :=
  if d.any (fun p => p.1 = k) then
    d.map (fun p => if p.1 = k then (k, v) else p)
  else d ++ [(k, v)]

/-- `d.get(k)` on a heap-model dict body. -/
def pdictGet (d : List (String × PyVal)) (k : String) : Option PyVal :=
  (d.find? (fun p => p.1 = k)).map (·.2)

/-- `entity.copy()` (source line 622): a new top-level dict object whose
entries — including references to nested dicts — are shared with the
original. -/
def dictCopyShallow (h : Heap) (a : Nat) : Heap × Nat :=
  heapAlloc h ((heapGet h a).getD [])

/-- The entity mutation of `AssignTagStepHandler.execute` (source lines
250-254) on the heap, for an already-resolved value: create
`entity["tags"] = \x7b\x7d` when the key is absent, then write
`entity["tags"][key] = v`; a pre-existing non-dict `tags` value raises
`TypeError`, caught with the heap unchanged. -/
def assignTagHeap (h : Heap) (entityAddr : Nat) (key : String) (v : PyVal) :
    Heap :=
  let d := (heapGet h entityAddr).getD []
  match pdictGet d "tags" with
  | some (.ref t) => heapSet h t (pdictSet ((heapGet h t).getD []) key v)
  | some (.str _) => h
  | none =>
      let (h1, t) := heapAlloc h []
      let h2 := heapSet h1 entityAddr (pdictSet d "tags" (.ref t))
      heapSet h2 t [(key, v)]

/-- A stored value's reference, if any, points below `n`. -/
def PyVal.refBound (n : Nat) : PyVal → Prop
  | .ref t => t < n
  | .str _ => True

instance (n : Nat) (v : PyVal) : Decidable (PyVal.refBound n v) :=
  match v with
  | .ref t => Nat.decLt t n
  | .str _ => inferInstanceAs (Decidable True)

/-- Well-formedness of a heap: distinct cell addresses, all below
`nextAddr`, and every reference stored in a cell points below
`nextAddr`. -/
def Heap.wf (h : Heap) : Prop :=
  (h.cells.map (·.1)).Nodup ∧
  ∀ p ∈ h.cells, p.1 < h.nextAddr ∧
    ∀ q ∈ p.2, PyVal.refBound h.nextAddr q.2

/-! ## Spec-side definition for the terminal `error_message` rule -/

/-- Stated from the spec words of claim C2: `error_message` is the
outcome message, "falling back to the outcome error when the message is
absent" — i.e. the fallback fires only when the message is `None`. -/
def specErrorMessage (message error : Option String) : Option String :=
  match message with
  | some m => some m
  | none => error

/-! ## Dictionary lemmas -/

theorem alistGet_alistSet {α : Type} (d : List (String × α)) (k k' : String) (v : α) :
    alistGet (alistSet d k v) k' = if k' = k then some v else alistGet d k' := by
  unfold alistSet alistGet
  by_cases h : d.any (fun p => p.1 = k)
  · simp only [h, if_true, List.find?_map]
    have hpred : ((fun q : String × α => decide (q.1 = k')) ∘
          (fun p => if p.1 = k then (k, v) else p)) =
        fun p : String × α => decide (p.1 = k') := by
      funext p
      by_cases hp : p.1 = k <;> simp [hp]
    rw [hpred, Option.map_map]
    by_cases hk : k' = k
    · subst hk
      rcases hfind : d.find? (fun p => decide (p.1 = k')) with _ | p0
      · rw [List.find?_eq_none] at hfind
        rw [List.any_eq_true] at h
        obtain ⟨p, hp, hpk⟩ := h
        exact absurd (by simpa using hpk) (by simpa using hfind p hp)
      · have hp0 : p0.1 = k' := by simpa using List.find?_some hfind
        rw [hfind]
        simp [Function.comp, hp0]
    · rcases hfind : d.find? (fun p => decide (p.1 = k')) with _ | r
      · rw [hfind]
        simp [hk]
      · have hr : r.1 = k' := by simpa using List.find?_some hfind
        have hrk : ¬ r.1 = k := by rw [hr]; exact hk
        rw [hfind]
        simp [Function.comp, hk, hrk]
  · rw [if_neg h]
    rw [List.find?_append]
    have hnone : ∀ p ∈ d, ¬ p.1 = k := by
      intro p hp hpk
      exact h (List.any_eq_true.mpr ⟨p, hp, by simpa using hpk⟩)
    by_cases hk : k' = k
    · subst hk
      have hfn : d.find? (fun p => decide (p.1 = k')) = none := by
        rw [List.find?_eq_none]
        intro p hp
        simpa using hnone p hp
      rw [hfn, if_pos rfl]
      simp
    · rw [if_neg hk]
      have hkv : (decide ((k, v).1 = k')) = false := by
        apply decide_eq_false
        intro he
        exact hk he.symm
      simp [List.find?_singleton, hkv]

theorem alistSet_idem {α : Type} (d : List (String × α)) (k : String) (v : α) :
    alistSet (alistSet d k v) k v = alistSet d k v := by
  unfold alistSet
  by_cases h : d.any (fun p => p.1 = k)
  · have hany : (d.map (fun p => if p.1 = k then (k, v) else p)).any
        (fun p => p.1 = k) = true := by
      rw [List.any_eq_true] at h ⊢
      obtain ⟨p, hp, hpk⟩ := h
      exact ⟨(k, v), List.mem_map.mpr ⟨p, hp, by simp [show p.1 = k by simpa using hpk]⟩,
        by simp⟩
    simp only [h, if_true, hany, List.map_map]
    apply List.map_congr_left
    intro p _
    by_cases hp : p.1 = k <;> simp [hp]
  · have hmap : d.map (fun p => if p.1 = k then (k, v) else p) = d := by
      conv_rhs => rw [← List.map_id d]
      apply List.map_congr_left
      intro p hp
      have hpk : ¬ p.1 = k := by
        intro hpk
        exact h (List.any_eq_true.mpr ⟨p, hp, by simpa using hpk⟩)
      simp [hpk]
    have hany : (d ++ [(k, v)]).any (fun p => p.1 = k) = true := by
      simp
    rw [if_neg h, if_pos hany, List.map_append, hmap]
    simp

theorem alistHas_alistDel {α : Type} (d : List (String × α)) (k : String) :
    alistHas (alistDel d k) k = false := by
  simp only [alistHas, alistDel, List.any_eq_false]
  intro p hp
  rcases List.mem_filter.mp hp with ⟨_, hpk⟩
  simpa using hpk

/-! ## Interpreter-loop lemmas -/

theorem execLoop_appendOnly (env : Env) (I : List (String × WorkflowStep)) :
    ∀ (fuel : Nat) (current : Option String) (st : LoopState) (ex : LoopExit),
      execLoop env I fuel current st = some ex →
      ∃ t, ex.state.records = st.records ++ t := by
  intro fuel
  induction fuel with
  | zero =>
    intro current st ex h
    simp [execLoop] at h
  | succ fuel ih =>
    intro current st ex h
    simp only [execLoop] at h
    by_cases hc : pyTruthyStr current
    · rw [if_pos hc] at h
      rcases hstep : alistGet I (current.getD "") with _ | step <;>
        simp only [hstep] at h
      · cases h
        exact ⟨[], by simp [LoopExit.state]⟩
      · by_cases hb : ((executeStep env step st.ctx).1).blocking
        · rw [if_pos hb] at h
          cases h
          exact ⟨[mkStepRecord step (executeStep env step st.ctx).1], rfl⟩
        · rw [if_neg hb] at h
          by_cases hn : pyTruthyStr (nextStepId step (executeStep env step st.ctx).1)
          · rw [if_pos hn] at h
            obtain ⟨t, ht⟩ := ih _ _ _ h
            refine ⟨mkStepRecord step (executeStep env step st.ctx).1 :: t, ?_⟩
            rw [ht]
            simp [stepAdvance]
          · rw [if_neg hn] at h
            cases h
            exact ⟨[mkStepRecord step (executeStep env step st.ctx).1], rfl⟩
    · rw [if_neg hc] at h
      cases h
      exact ⟨[], by simp [LoopExit.state]⟩

theorem execLoop_records_len (env : Env) (I : List (String × WorkflowStep)) :
    ∀ (fuel : Nat) (current : Option String) (st : LoopState) (ex : LoopExit),
      execLoop env I fuel current st = some ex →
      ex.state.records.length =
        st.records.length + dispatchCount env I fuel current st := by
  intro fuel
  induction fuel with
  | zero =>
    intro current st ex h
    simp [execLoop] at h
  | succ fuel ih =>
    intro current st ex h
    simp only [execLoop] at h
    simp only [dispatchCount]
    by_cases hc : pyTruthyStr current
    · rw [if_pos hc] at h
      rw [if_pos hc]
      rcases hstep : alistGet I (current.getD "") with _ | step <;>
        simp only [hstep] at h ⊢
      · cases h
        simp [LoopExit.state]
      · by_cases hb : ((executeStep env step st.ctx).1).blocking
        · rw [if_pos hb] at h
          rw [if_pos hb]
          cases h
          simp [LoopExit.state, stepAdvance]
        · rw [if_neg hb] at h
          rw [if_neg hb]
          by_cases hn : pyTruthyStr (nextStepId step (executeStep env step st.ctx).1)
          · rw [if_pos hn] at h
            rw [if_pos hn]
            have := ih _ _ _ h
            rw [this]
            simp [stepAdvance]
            omega
          · rw [if_neg hn] at h
            rw [if_neg hn]
            cases h
            simp [LoopExit.state, stepAdvance]
    · rw [if_neg hc] at h
      rw [if_neg hc]
      cases h
      simp [LoopExit.state]

theorem execLoop_counts (env : Env) (I : List (String × WorkflowStep)) :
    ∀ (fuel : Nat) (current : Option String) (st : LoopState) (ex : LoopExit),
      execLoop env I fuel current st = some ex →
      ex.state.success_count + ex.state.failure_count =
        st.success_count + st.failure_count +
          dispatchCount env I fuel current st := by
  intro fuel
  induction fuel with
  | zero =>
    intro current st ex h
    simp [execLoop] at h
  | succ fuel ih =>
    intro current st ex h
    simp only [execLoop] at h
    simp only [dispatchCount]
    by_cases hc : pyTruthyStr current
    · rw [if_pos hc] at h
      rw [if_pos hc]
      rcases hstep : alistGet I (current.getD "") with _ | step <;>
        simp only [hstep] at h ⊢
      · cases h
        simp [LoopExit.state]
      · by_cases hb : ((executeStep env step st.ctx).1).blocking
        · rw [if_pos hb] at h
          rw [if_pos hb]
          cases h
          by_cases hp : ((executeStep env step st.ctx).1).passed <;>
            simp [LoopExit.state, stepAdvance, hp] <;> omega
        · rw [if_neg hb] at h
          rw [if_neg hb]
          by_cases hn : pyTruthyStr (nextStepId step (executeStep env step st.ctx).1)
          · rw [if_pos hn] at h
            rw [if_pos hn]
            have := ih _ _ _ h
            rw [this]
            by_cases hp : ((executeStep env step st.ctx).1).passed <;>
              simp [stepAdvance, hp] <;> omega
          · rw [if_neg hn] at h
            rw [if_neg hn]
            cases h
            by_cases hp : ((executeStep env step st.ctx).1).passed <;>
              simp [LoopExit.state, stepAdvance, hp] <;> omega
    · rw [if_neg hc] at h
      rw [if_neg hc]
      cases h
      simp [LoopExit.state]

theorem execLoop_first_record (env : Env) (I : List (String × WorkflowStep))
    (fuel : Nat) (current : Option String) (st : LoopState)
    (step : WorkflowStep) (ex : LoopExit)
    (hc : pyTruthyStr current = true)
    (hstep : alistGet I (current.getD "") = some step)
    (h : execLoop env I (fuel + 1) current st = some ex) :
    ex.state.records[st.records.length]? =
      some (mkStepRecord step (executeStep env step st.ctx).1) := by
  simp only [execLoop] at h
  rw [if_pos hc, hstep] at h
  simp only at h
  by_cases hb : ((executeStep env step st.ctx).1).blocking
  · rw [if_pos hb] at h
    cases h
    show ((stepAdvance env step st).records)[st.records.length]? = _
    simp [stepAdvance, List.getElem?_append_right]
  · rw [if_neg hb] at h
    by_cases hn : pyTruthyStr (nextStepId step (executeStep env step st.ctx).1)
    · rw [if_pos hn] at h
      obtain ⟨t, ht⟩ := execLoop_appendOnly env I _ _ _ _ h
      rw [ht]
      show ((stepAdvance env step st).records ++ t)[st.records.length]? = _
      simp [stepAdvance, List.append_assoc]
      rw [List.getElem_append_right (Nat.le_refl _)]
      simp
    · rw [if_neg hn] at h
      cases h
      show ((stepAdvance env step st).records)[st.records.length]? = _
      simp [stepAdvance, List.getElem?_append_right]

/-! ## Concrete fixtures for witnesses and counterexamples -/

/-- A benign oracle environment for concrete runs. -/
def envNoop : Env :=
  { evalRule := fun _ _ => .ok (true, "ok"),
    evalCondition := fun _ _ => .ok (.boolV true),
    runPython := fun _ => .ok none,
    getPolicy := fun _ => .ok none,
    deliver := none,
    now := "2024-01-01T00:00:00",
    freshExecutionId := "exec-1" }

/-- A concrete step context. -/
def ctx0 : StepContext :=
  { entity := [("owner", .str "o@x.com")],
    entity_type := "data_product",
    entity_id := "dp-1",
    entity_name := some "DP",
    user_email := some "u@x.com",
    trigger_context := none,
    execution_id := "exec-1",
    workflow_id := "wf-1",
    workflow_name := "Test",
    step_results := [] }

/-- A concrete initial loop state. -/
def st0 : LoopState :=
  { ctx := ctx0, success_count := 0, failure_count := 0, records := [] }

/-- An approval step (its handler always returns `blocking=True`). -/
def stepA1 : WorkflowStep :=
  { id := "row-a1", step_id := "a1", step_type := "approval",
    config := some [("approvers", .str "requester")],
    on_pass := none, on_fail := none }

/-- A validation step branching to `p1` on pass. -/
def stepV1 : WorkflowStep :=
  { id := "row-v1", step_id := "v1", step_type := "validation",
    config := some [("rule", .str "size>0")],
    on_pass := some "p1", on_fail := none }

/-- A terminal pass step. -/
def stepP1 : WorkflowStep :=
  { id := "row-p1", step_id := "p1", step_type := "pass",
    config := none, on_pass := none, on_fail := none }

/-- The two-step index `v1 → p1`. -/
def I3 : List (String × WorkflowStep) :=
  [("v1", stepV1), ("p1", stepP1)]

/-- The loop exit of the concrete `v1 → p1` run. -/
def ex3 : LoopExit :=
  (execLoop envNoop I3 5 (some "v1") st0).getD (.done "x" none st0)

/-! ## C1 -/

/-- C1: if the step just executed returns a blocking outcome, the loop
exits immediately — for every remaining fuel — and the persisted
execution has status `paused`, `current_step_id` equal to the step's id,
the updated running tallies and the appended record, with no further
step dispatched; nothing here depends on the outcome's `passed`. -/
theorem C1_blocking_pauses (env : Env) (I : List (String × WorkflowStep))
    (fuel : Nat) (current : Option String) (st : LoopState)
    (step : WorkflowStep)
    (hc : pyTruthyStr current = true)
    (hstep : alistGet I (current.getD "") = some step)
    (hb : ((executeStep env step st.ctx).1).blocking = true) :
    (execLoop env I (fuel + 1) current st).map finalize =
      some { status := "paused",
             current_step_id := some (current.getD ""),
             success_count := (stepAdvance env step st).success_count,
             failure_count := (stepAdvance env step st).failure_count,
             error_message := none,
             finished := false,
             step_executions := (stepAdvance env step st).records } := by
  simp only [execLoop]
  rw [if_pos hc, hstep]
  simp only [hb, if_true]
  rfl

/-- Closed instance of C1: an approval step pauses the run at `a1`. -/
theorem C1_witness :
    (execLoop envNoop [("a1", stepA1)] 8 (some "a1") st0).map finalize =
      some { status := "paused",
             current_step_id := some "a1",
             success_count := (stepAdvance envNoop stepA1 st0).success_count,
             failure_count := (stepAdvance envNoop stepA1 st0).failure_count,
             error_message := none,
             finished := false,
             step_executions := (stepAdvance envNoop stepA1 st0).records } :=
  C1_blocking_pauses envNoop [("a1", stepA1)] 7 (some "a1") st0 stepA1
    (by decide) rfl (by decide)

/-! ## C2 -/

/-- The one-step workflow whose `fail` step is configured with an empty
message: its outcome has `message = some ""` and `error = none`. -/
def wfEmptyMsg : ProcessWorkflow :=
  { id := "w-c2", name := "C2",
    steps := [{ id := "row-f1", step_id := "f1", step_type := "fail",
                config := some [("message", .str "")],
                on_pass := none, on_fail := none }] }

/-- Counterexample to C2 as stated: in the `wfEmptyMsg` run the failing
outcome's message is present (`some ""`), so the claim predicts
`error_message = some ""`; the code computes `result.message or
result.error` by Python truthiness, the empty string falls through to
the absent `error`, and the persisted `error_message` is `none`. -/
theorem C2_counterexample :
    (failExecute [("message", .str "")] ctx0).1.message = some "" ∧
    (execute_workflow 3 envNoop wfEmptyMsg [] "data_product" "dp-1"
        none none none).map ExecutionRecord.error_message = some none ∧
    (execute_workflow 3 envNoop wfEmptyMsg [] "data_product" "dp-1"
        none none none).map ExecutionRecord.error_message ≠
      some (specErrorMessage (some "") none) := by
  refine ⟨rfl, rfl, ?_⟩
  intro h
  have h2 : (execute_workflow 3 envNoop wfEmptyMsg [] "data_product" "dp-1"
      none none none).map ExecutionRecord.error_message = some none := rfl
  rw [h2] at h
  exact absurd h (by decide)

/-- C2 (amended): when a non-blocking step's chosen branch is falsy, the
loop terminates with `succeeded` iff the outcome passed; on failure
`error_message` is `result.message or result.error` under Python
truthiness — the message when present and non-empty, otherwise the
error. -/
theorem C2_terminal_branch (env : Env) (I : List (String × WorkflowStep))
    (fuel : Nat) (current : Option String) (st : LoopState)
    (step : WorkflowStep)
    (hc : pyTruthyStr current = true)
    (hstep : alistGet I (current.getD "") = some step)
    (hb : ((executeStep env step st.ctx).1).blocking = false)
    (hn : pyTruthyStr (nextStepId step (executeStep env step st.ctx).1) = false) :
    (execLoop env I (fuel + 1) current st).map finalize =
      some { status := if ((executeStep env step st.ctx).1).passed
                       then "succeeded" else "failed",
             current_step_id := none,
             success_count := (stepAdvance env step st).success_count,
             failure_count := (stepAdvance env step st).failure_count,
             error_message := if ((executeStep env step st.ctx).1).passed then none
               else pyOrStr ((executeStep env step st.ctx).1).message
                      ((executeStep env step st.ctx).1).error,
             finished := true,
             step_executions := (stepAdvance env step st).records } := by
  simp only [execLoop]
  rw [if_pos hc, hstep]
  simp only [hb, Bool.false_eq_true, if_false, hn, if_false]
  rfl

/-- Closed instance of C2 (amended): the `wfEmptyMsg` fail step
terminates the run as `failed` with `error_message = none`. -/
theorem C2_witness :
    (execLoop envNoop
        [("f1", { id := "row-f1", step_id := "f1", step_type := "fail",
                  config := some [("message", .str "")],
                  on_pass := none, on_fail := none })] 4 (some "f1") st0).map
        finalize =
      some { status := "failed",
             current_step_id := none,
             success_count := 0,
             failure_count := 1,
             error_message := none,
             finished := true,
             step_executions :=
               [{ step_id := "row-f1", status := "failed", passed := false,
                  result_data := none, error_message := none,
                  duration_ms := 0 }] } := by
  have h := C2_terminal_branch envNoop
    [("f1", { id := "row-f1", step_id := "f1", step_type := "fail",
              config := some [("message", .str "")],
              on_pass := none, on_fail := none })] 3 (some "f1") st0
    { id := "row-f1", step_id := "f1", step_type := "fail",
      config := some [("message", .str "")],
      on_pass := none, on_fail := none }
    (by decide) rfl (by decide) (by decide)
  rw [h]
  rfl

/-! ## C3 -/

/-- C3: (a) whenever the loop finishes, the number of records equals the
number of step dispatches performed; (b) each dispatch appends its
record — carrying the outcome's status, `passed`, result data and error,
with the timing field — at the next position of the audit trail no
matter how the iteration then exits (blocking pause, terminal branch or
further recursion), i.e. the record is written before the blocking check
and the branch resolution take effect. -/
theorem C3_record_per_dispatch (env : Env) (I : List (String × WorkflowStep)) :
    (∀ (fuel : Nat) (current : Option String) (st : LoopState) (ex : LoopExit),
        execLoop env I fuel current st = some ex →
        ex.state.records.length =
          st.records.length + dispatchCount env I fuel current st) ∧
    (∀ (fuel : Nat) (current : Option String) (st : LoopState)
        (step : WorkflowStep) (ex : LoopExit),
        pyTruthyStr current = true →
        alistGet I (current.getD "") = some step →
        execLoop env I (fuel + 1) current st = some ex →
        ex.state.records[st.records.length]? =
          some (mkStepRecord step (executeStep env step st.ctx).1)) :=
  ⟨execLoop_records_len env I,
   fun fuel current st step ex hc hstep h =>
     execLoop_first_record env I fuel current st step ex hc hstep h⟩

/-- Closed instance of C3 on the two-step `v1 → p1` run: two records for
two dispatches, and the first record is the validation step's. -/
theorem C3_witness :
    ex3.state.records.length =
      st0.records.length + dispatchCount envNoop I3 5 (some "v1") st0 ∧
    ex3.state.records[st0.records.length]? =
      some (mkStepRecord stepV1 (executeStep envNoop stepV1 st0.ctx).1) := by
  have h := C3_record_per_dispatch envNoop I3
  exact ⟨h.1 5 (some "v1") st0 ex3 rfl,
         h.2 4 (some "v1") st0 stepV1 ex3 (by decide) rfl rfl⟩

/-! ## C4 -/

/-- A terminal `fail` step, dispatched with a failing outcome. -/
def stepF0 : WorkflowStep :=
  { id := "row-f0", step_id := "f0", step_type := "fail",
    config := none, on_pass := none, on_fail := none }

/-- C4: each dispatch increments exactly one of the two tallies by
exactly one — `success_count` when the outcome passed with
`failure_count` untouched, and `failure_count` when it did not with
`success_count` untouched, whatever branch is taken next — and whenever
the loop finishes the final `success_count + failure_count` equals the
number of steps actually dispatched, a quantity independent of how many
steps the workflow defines. -/
theorem C4_tallies (env : Env) (I : List (String × WorkflowStep)) :
    (∀ (step : WorkflowStep) (st : LoopState),
        (((executeStep env step st.ctx).1).passed = true →
          (stepAdvance env step st).success_count = st.success_count + 1 ∧
          (stepAdvance env step st).failure_count = st.failure_count) ∧
        (((executeStep env step st.ctx).1).passed = false →
          (stepAdvance env step st).success_count = st.success_count ∧
          (stepAdvance env step st).failure_count = st.failure_count + 1)) ∧
    (∀ (fuel : Nat) (current : Option String) (st : LoopState) (ex : LoopExit),
        execLoop env I fuel current st = some ex →
        ex.state.success_count + ex.state.failure_count =
          st.success_count + st.failure_count +
            dispatchCount env I fuel current st) := by
  constructor
  · intro step st
    constructor
    · intro hp
      constructor <;> simp [stepAdvance, hp]
    · intro hp
      constructor <;> simp [stepAdvance, hp]
  · exact execLoop_counts env I

/-- Closed instance of C4: the passing validation step bumps only
`success_count`, the failing `fail` step bumps only `failure_count`,
and on the two-step `v1 → p1` run the final tally sum equals the
dispatch count. -/
theorem C4_witness :
    ((stepAdvance envNoop stepV1 st0).success_count = st0.success_count + 1 ∧
      (stepAdvance envNoop stepV1 st0).failure_count = st0.failure_count) ∧
    ((stepAdvance envNoop stepF0 st0).success_count = st0.success_count ∧
      (stepAdvance envNoop stepF0 st0).failure_count = st0.failure_count + 1) ∧
    ex3.state.success_count + ex3.state.failure_count =
      st0.success_count + st0.failure_count +
        dispatchCount envNoop I3 5 (some "v1") st0 := by
  have h := C4_tallies envNoop I3
  exact ⟨(h.1 stepV1 st0).1 (by decide), (h.1 stepF0 st0).2 (by decide),
         h.2 5 (some "v1") st0 ex3 rfl⟩

/-! ## C5 -/

/-- An environment in which every external collaborator raises, with
`str(e) = e`: used to show every per-step fault is converted into a
failed `StepResult`. -/
def envFail (e : String) : Env :=
  { evalRule := fun _ _ => .error e,
    evalCondition := fun _ _ => .error e,
    runPython := fun _ => .error e,
    getPolicy := fun _ => .error e,
    deliver := some (fun _ _ => .error e),
    now := "",
    freshExecutionId := "" }

/-- C5: dispatching a step is a total function that never propagates a
fault — an unknown step kind yields the failed outcome with error
`Unknown step type: <kind>` and no entity change, and for every handler
that consults an external collaborator, a fault raised there is caught
and converted into `StepResult(passed=False, error=str(e))` (for
`policy_check`, with its `policy_id` data payload), leaving the entity
unchanged, so the run continues on the `on_fail` branch instead of
crashing. -/
theorem C5_fault_conversion (e : String) (ctx : StepContext) :
    (∀ step : WorkflowStep, handlerFor (envFail e) step.step_type = none →
        executeStep (envFail e) step ctx =
          ({ passed := false,
             error := some ("Unknown step type: " ++ step.step_type) },
           ctx.entity)) ∧
    (∀ config : Dict, pyTruthy (alistGetD config "rule" (.str "")) = true →
        validationExecute (envFail e) config ctx = (errResult e, ctx.entity)) ∧
    (∀ config : Dict, pyTruthy (alistGetD config "condition" (.str "")) = true →
        conditionalExecute (envFail e) config ctx = (errResult e, ctx.entity)) ∧
    (∀ code : Value, pyTruthy code = true →
        scriptExecute (envFail e) [("code", code)] ctx =
          (errResult e, ctx.entity)) ∧
    (∀ config : Dict, pyTruthy (alistGetD config "policy_id" (.str "")) = true →
        policyCheckExecute (envFail e) config ctx =
          ({ passed := false, error := some e,
             data := some (.dict
               [("policy_id", alistGetD config "policy_id" (.str ""))]) },
           ctx.entity)) ∧
    deliveryExecute (envFail e) [] ctx = (errResult e, ctx.entity) := by
  refine ⟨?_, ?_, ?_, ?_, ?_, ?_⟩
  · intro step h
    unfold executeStep
    rw [h]
  · intro config h
    simp [validationExecute, h, envFail]
  · intro config h
    simp [conditionalExecute, h, envFail]
  · intro code h
    simp [scriptExecute, scriptExecutePython, h, envFail, alistGetD, alistGet,
      Value.beq]
  · intro config h
    simp [policyCheckExecute, h, envFail]
  · rfl

/-- Closed instance of C5: an unregistered kind and a faulting
validation rule both become failed outcomes with the error set. -/
theorem C5_witness :
    executeStep (envFail "boom")
        { id := "r", step_id := "s", step_type := "bogus", config := none,
          on_pass := none, on_fail := none } ctx0 =
      ({ passed := false, error := some "Unknown step type: bogus" },
       ctx0.entity) ∧
    validationExecute (envFail "boom") [("rule", .str "size>0")] ctx0 =
      (errResult "boom", ctx0.entity) := by
  have h := C5_fault_conversion "boom" ctx0
  exact ⟨h.1 _ rfl, h.2.1 _ (by decide)⟩

/-! ## C7 -/

/-- C7: `resume_workflow` returns `none` when the execution is missing,
when its stored status is not `paused`, or when the owning workflow
cannot be loaded; only an existing, currently paused execution with an
existing workflow proceeds past the guards (and, the continuation being
an unimplemented TODO in the source, is then returned unchanged). -/
theorem C7_resume_guards (db : ResumeDb) (execution_id : String)
    (step_result : Bool) (result_data : Option Value) :
    (db.getExecution execution_id = none →
        resume_workflow db execution_id step_result result_data = none) ∧
    (∀ ex : DbExecution, db.getExecution execution_id = some ex →
        ex.status ≠ "paused" →
        resume_workflow db execution_id step_result result_data = none) ∧
    (∀ ex : DbExecution, db.getExecution execution_id = some ex →
        ex.status = "paused" → db.getWorkflow ex.workflow_id = none →
        resume_workflow db execution_id step_result result_data = none) ∧
    (∀ (ex : DbExecution) (wf : DbWorkflow),
        db.getExecution execution_id = some ex →
        ex.status = "paused" → db.getWorkflow ex.workflow_id = some wf →
        resume_workflow db execution_id step_result result_data = some ex) := by
  refine ⟨?_, ?_, ?_, ?_⟩
  · intro h
    unfold resume_workflow
    rw [h]
  · intro ex h hs
    unfold resume_workflow
    rw [h]
    simp [hs]
  · intro ex h hs hw
    unfold resume_workflow
    rw [h]
    simp [hs, hw]
  · intro ex wf h hs hw
    unfold resume_workflow
    rw [h]
    simp [hs, hw]

/-- A stored paused execution and its workflow, for the C7 instance. -/
def dbExec0 : DbExecution :=
  { id := "e1", workflow_id := "w1", status := "paused",
    current_step_id := some "a1", success_count := 1, failure_count := 0,
    error_message := none, step_executions := [] }

/-- The repository fixture holding `dbExec0` and its workflow. -/
def db0 : ResumeDb :=
  { getExecution := fun i => if i = "e1" then some dbExec0 else none,
    getWorkflow := fun i => if i = "w1" then some { id := "w1", name := "W" } else none }

/-- Closed instance of C7: a missing id resumes to nothing; the stored
paused execution with a loadable workflow passes the guards and comes
back unchanged. -/
theorem C7_witness :
    resume_workflow db0 "missing" true none = none ∧
    resume_workflow db0 "e1" false none = some dbExec0 := by
  have h := C7_resume_guards db0 "missing" true none
  have h2 := C7_resume_guards db0 "e1" false none
  exact ⟨h.1 rfl, h2.2.2.2 dbExec0 { id := "w1", name := "W" } rfl rfl rfl⟩

/-! ## C8 -/

/-- The empty workflow. -/
def wfEmpty : ProcessWorkflow := { id := "w-c8", name := "E", steps := [] }

/-- Counterexample to C8 as stated: executing the empty workflow leaves
the initial `RUNNING` status in place — the persisted status is
`running`, not a `SUCCEEDED`-equivalent terminal status. -/
theorem C8_counterexample :
    (execute_workflow 1 envNoop wfEmpty [] "t" "e" none none none).map
        ExecutionRecord.status = some "running" ∧
    (execute_workflow 1 envNoop wfEmpty [] "t" "e" none none none).map
        ExecutionRecord.status ≠ some "succeeded" := by
  exact ⟨rfl, by decide⟩

/-- C8 (amended): an empty steps sequence dispatches no steps, appends
no records and keeps zero tallies, but the run is finalized with the
initial status `running` (with `finished_at` set, no error) rather than
a terminal `SUCCEEDED`. -/
theorem C8_empty_workflow (fuel : Nat) (env : Env)
    (workflow : ProcessWorkflow) (entity : Dict) (et ei : String)
    (en ue : Option String) (tc : Option Value)
    (h : workflow.steps = []) :
    execute_workflow (fuel + 1) env workflow entity et ei en ue tc =
      some { status := "running", current_step_id := none,
             success_count := 0, failure_count := 0, error_message := none,
             finished := true, step_executions := [] } := by
  unfold execute_workflow
  rw [h]
  simp [execLoop, buildIndex, pyTruthyStr, finalize]

/-- Closed instance of C8 (amended) on the empty workflow. -/
theorem C8_witness :
    execute_workflow 1 envNoop wfEmpty [] "t" "e" none none none =
      some { status := "running", current_step_id := none,
             success_count := 0, failure_count := 0, error_message := none,
             finished := true, step_executions := [] } :=
  C8_empty_workflow 0 envNoop wfEmpty [] "t" "e" none none none rfl

/-! ## C10 -/

/-- A one-step cycle: a `pass` step whose `on_pass` is itself. -/
def wfCycle : ProcessWorkflow :=
  { id := "w-loop", name := "Loop",
    steps := [{ id := "row-s1", step_id := "s1", step_type := "pass",
                config := none, on_pass := some "s1", on_fail := none }] }

/-- The cyclic `pass` step always recurses: the loop never exits within
any amount of fuel, from any loop state. -/
theorem execLoop_wfCycle_none (env : Env) :
    ∀ (fuel : Nat) (st : LoopState),
      execLoop env (buildIndex wfCycle.steps) fuel (some "s1") st = none := by
  intro fuel
  induction fuel with
  | zero => intro st; rfl
  | succ fuel ih =>
    intro st
    simp only [execLoop]
    rw [if_pos (by decide)]
    have hstep : alistGet (buildIndex wfCycle.steps) ((some "s1").getD "") =
        some { id := "row-s1", step_id := "s1", step_type := "pass",
               config := none, on_pass := some "s1", on_fail := none } := rfl
    rw [hstep]
    simp only
    rw [if_neg (by simp [show (executeStep env
        { id := "row-s1", step_id := "s1", step_type := "pass",
          config := none, on_pass := some "s1", on_fail := none }
        st.ctx).1.blocking = false from rfl])]
    rw [if_pos (by exact rfl)]
    exact ih _

/-- C10: the interpreter has no cycle detection or step budget — on the
self-looping `pass` workflow, `execute_workflow` runs out of any fuel
without terminating (the fuel-indexed loop returns `none` for every
fuel), for every entity and environment. -/
theorem C10_cycle_diverges (fuel : Nat) (env : Env) (entity : Dict)
    (et ei : String) (en ue : Option String) (tc : Option Value) :
    execute_workflow fuel env wfCycle entity et ei en ue tc = none := by
  have key : execute_workflow fuel env wfCycle entity et ei en ue tc =
      (execLoop env (buildIndex wfCycle.steps) fuel (some "s1")
        { ctx := { entity := entity, entity_type := et, entity_id := ei,
                   entity_name := en, user_email := ue, trigger_context := tc,
                   execution_id := env.freshExecutionId,
                   workflow_id := wfCycle.id,
                   workflow_name := wfCycle.name, step_results := [] },
          success_count := 0, failure_count := 0, records := [] }).map
        finalize := rfl
  rw [key, execLoop_wfCycle_none env fuel _]
  rfl

/-! ## C9 -/

/-- The entity's `tags` slot is a mapping or absent — the shapes under
which the spec speaks of "the tag mapping". -/
def tagsWF (e : Dict) : Prop :=
  match alistGet e "tags" with
  | none => True
  | some (.dict _) => True
  | some _ => False

/-- Updating the `tags` slot does not change what
`_resolve_value_source` reads (it only consults `user_email`,
`entity_name`, the clock, and the `project_name` / `project_id`
entries). -/
theorem resolveValueSource_set_tags (vs : Value) (env : Env)
    (ctx : StepContext) (X : Value) :
    resolveValueSource vs env { ctx with entity := alistSet ctx.entity "tags" X } =
      resolveValueSource vs env ctx := by
  unfold resolveValueSource
  by_cases h1 : vs.beq (Value.str "current_user") = true
  · simp only [if_pos h1]
  · simp only [if_neg h1]
    by_cases h2 : vs.beq (Value.str "project_name") = true
    · simp only [if_pos h2]
      show pyOrVal (alistGet (alistSet ctx.entity "tags" X) "project_name")
          (alistGet (alistSet ctx.entity "tags" X) "project_id") = _
      rw [alistGet_alistSet, alistGet_alistSet]
      rw [if_neg (by decide), if_neg (by decide)]
    · simp only [if_neg h2]

/-- Updating the `tags` slot does not change the resolved tag value. -/
theorem assignResolved_set_tags (env : Env) (config : Dict)
    (ctx : StepContext) (X : Value) :
    assignResolved env config { ctx with entity := alistSet ctx.entity "tags" X } =
      assignResolved env config ctx := by
  unfold assignResolved
  cases alistGet config "value_source" with
  | none => rfl
  | some vs =>
      by_cases hvs : pyTruthy vs = true
      · simp only [if_pos hvs]
        exact resolveValueSource_set_tags vs env ctx X
      · simp only [if_neg hvs]

theorem alistSet_single {α : Type} (k : String) (v : α) :
    alistSet [(k, v)] k v = [(k, v)] := by
  simp [alistSet]

/-- A run of `assign_tag` that leaves the entity unchanged is
idempotent. -/
theorem assignTag_unchanged_idem (env : Env) (config : Dict)
    (ctx : StepContext)
    (h : (assignTagExecute env config ctx).2 = ctx.entity) :
    (assignTagExecute env config
        { ctx with entity := (assignTagExecute env config ctx).2 }).2 =
      (assignTagExecute env config ctx).2 := by
  rw [h]
  exact h

/-- A run of `remove_tag` that leaves the entity unchanged is
idempotent. -/
theorem removeTag_unchanged_idem (config : Dict) (ctx : StepContext)
    (h : (removeTagExecute config ctx).2 = ctx.entity) :
    (removeTagExecute config
        { ctx with entity := (removeTagExecute config ctx).2 }).2 =
      (removeTagExecute config ctx).2 := by
  rw [h]
  exact h

/-- Closed-form description of the entity `assign_tag` leaves behind. -/
theorem assignTag_entity (env : Env) (config : Dict) (ctx : StepContext) :
    (assignTagExecute env config ctx).2 =
      if pyTruthy (alistGetD config "key" (.str "")) = true then
        if pyTruthyOptVal (assignResolved env config ctx) = true then
          match alistGet ctx.entity "tags" with
          | some (.dict d) =>
              alistSet ctx.entity "tags"
                (.dict (alistSet d (tagKeyStr (alistGetD config "key" (.str "")))
                  ((assignResolved env config ctx).getD .noneV)))
          | some _ => ctx.entity
          | none =>
              alistSet ctx.entity "tags"
                (.dict [(tagKeyStr (alistGetD config "key" (.str "")),
                  (assignResolved env config ctx).getD .noneV)])
        else ctx.entity
      else ctx.entity := by
  unfold assignTagExecute
  by_cases hkey : pyTruthy (alistGetD config "key" (.str "")) = true
  · rw [if_neg (by simp [hkey]), if_pos hkey]
    by_cases hres : pyTruthyOptVal (assignResolved env config ctx) = true
    · rw [if_neg (by simp [hres]), if_pos hres]
      rcases htags : alistGet ctx.entity "tags" with _ | tv
      · rfl
      · cases tv <;> rfl
    · rw [if_pos (by simp [hres]), if_neg hres]
  · rw [if_pos (by simp [hkey]), if_neg hkey]

/-- `remove_tag` on a dict-shaped tag slot with a non-empty string key:
the uniform success result, deleting the key exactly when present. -/
theorem removeTag_dict (config : Dict) (ctx : StepContext)
    (d : List (String × Value)) (k : String)
    (htags : alistGet ctx.entity "tags" = some (.dict d))
    (hk : alistGetD config "key" (.str "") = .str k)
    (hkey : k ≠ "") :
    removeTagExecute config ctx =
      ({ passed := true, message := some ("Removed tag " ++ k),
         data := some (.dict [("key", .str k)]) },
       if alistHas d k then alistSet ctx.entity "tags" (.dict (alistDel d k))
       else ctx.entity) := by
  unfold removeTagExecute
  rw [hk]
  rw [if_neg (by simp [pyTruthy, hkey])]
  rw [htags]
  by_cases hhas : alistHas d k = true
  · simp [pyInVal, hhas, pyDelItem, Value.pyStr]
  · simp [pyInVal, hhas, Value.pyStr]

/-- `remove_tag` on a dict-shaped tag slot with a truthy non-string key
is a no-op success (the membership test is `False`). -/
theorem removeTag_dict_nonstr (config : Dict) (ctx : StepContext)
    (d : List (String × Value))
    (htags : alistGet ctx.entity "tags" = some (.dict d))
    (hk : ∀ s : String, alistGetD config "key" (.str "") ≠ .str s)
    (hkey : pyTruthy (alistGetD config "key" (.str "")) = true) :
    (removeTagExecute config ctx).2 = ctx.entity := by
  unfold removeTagExecute
  rw [if_neg (by simp [hkey])]
  rw [htags]
  rcases hkv : alistGetD config "key" (.str "") with s | b | n | _ | dd | l
  · exact absurd hkv (hk s)
  all_goals simp [pyInVal]

/-- `remove_tag` with an absent `tags` slot is a no-op. -/
theorem removeTag_notags (config : Dict) (ctx : StepContext)
    (htags : alistGet ctx.entity "tags" = none) :
    (removeTagExecute config ctx).2 = ctx.entity := by
  unfold removeTagExecute
  by_cases hkey : pyTruthy (alistGetD config "key" (.str "")) = true
  · rw [if_neg (by simp [hkey]), htags]
  · rw [if_pos (by simp [hkey])]

/-- C9: against an entity whose `tags` slot is a mapping (or absent),
executing the same `assign_tag` step, or the same `remove_tag` step,
twice in succession with the same config yields the same final entity —
hence the same final tag mapping — as executing it once; and
`remove_tag` succeeds as a no-op, leaving the entity untouched, when the
key is already absent. -/
theorem C9_tag_idempotence (env : Env) (config : Dict) (ctx : StepContext)
    (hTags : tagsWF ctx.entity) :
    ((assignTagExecute env config
        { ctx with entity := (assignTagExecute env config ctx).2 }).2 =
      (assignTagExecute env config ctx).2) ∧
    ((removeTagExecute config
        { ctx with entity := (removeTagExecute config ctx).2 }).2 =
      (removeTagExecute config ctx).2) ∧
    (∀ k : String, alistGetD config "key" (.str "") = .str k → k ≠ "" →
      (match alistGet ctx.entity "tags" with
       | none => True
       | some (.dict d) => alistHas d k = false
       | some _ => False) →
      removeTagExecute config ctx =
        ({ passed := true, message := some ("Removed tag " ++ k),
           data := some (.dict [("key", .str k)]) }, ctx.entity)) := by
  refine ⟨?_, ?_, ?_⟩
  · -- assign_tag idempotence
    by_cases hkey : pyTruthy (alistGetD config "key" (.str "")) = true
    · by_cases hres : pyTruthyOptVal (assignResolved env config ctx) = true
      · rcases htags : alistGet ctx.entity "tags" with _ | tv
        · have he1 : (assignTagExecute env config ctx).2 =
              alistSet ctx.entity "tags"
                (.dict [(tagKeyStr (alistGetD config "key" (.str "")),
                  (assignResolved env config ctx).getD .noneV)]) := by
            rw [assignTag_entity]
            simp [hkey, hres, htags]
          rw [he1]
          rw [assignTag_entity]
          dsimp only
          rw [assignResolved_set_tags]
          simp [hkey, hres, alistGet_alistSet, alistSet_single, alistSet_idem]
        · cases tv with
          | dict d =>
              have he1 : (assignTagExecute env config ctx).2 =
                  alistSet ctx.entity "tags"
                    (.dict (alistSet d
                      (tagKeyStr (alistGetD config "key" (.str "")))
                      ((assignResolved env config ctx).getD .noneV))) := by
                rw [assignTag_entity]
                simp [hkey, hres, htags]
              rw [he1]
              rw [assignTag_entity]
              dsimp only
              rw [assignResolved_set_tags]
              simp [hkey, hres, alistGet_alistSet, alistSet_idem]
          | str s => simp [tagsWF, htags] at hTags
          | boolV b => simp [tagsWF, htags] at hTags
          | intV n => simp [tagsWF, htags] at hTags
          | noneV => simp [tagsWF, htags] at hTags
          | list l => simp [tagsWF, htags] at hTags
      · refine assignTag_unchanged_idem env config ctx ?_
        rw [assignTag_entity]
        simp [hkey, hres]
    · refine assignTag_unchanged_idem env config ctx ?_
      rw [assignTag_entity]
      simp [hkey]
  · -- remove_tag idempotence
    by_cases hkey : pyTruthy (alistGetD config "key" (.str "")) = true
    · rcases htags : alistGet ctx.entity "tags" with _ | tv
      · exact removeTag_unchanged_idem config ctx (removeTag_notags config ctx htags)
      · cases tv with
        | dict d =>
            rcases hkv : alistGetD config "key" (.str "") with k | b | n | _ | dd | l
            · have hk0 : k ≠ "" := by
                rw [hkv] at hkey
                simpa [pyTruthy] using hkey
              by_cases hhas : alistHas d k = true
              · have he1 : (removeTagExecute config ctx).2 =
                    alistSet ctx.entity "tags" (.dict (alistDel d k)) := by
                  rw [removeTag_dict config ctx d k htags hkv hk0]
                  simp [hhas]
                rw [he1]
                have htags2 : alistGet
                    ({ ctx with entity :=
                        alistSet ctx.entity "tags" (.dict (alistDel d k)) } :
                      StepContext).entity "tags" =
                    some (.dict (alistDel d k)) := by
                  dsimp only
                  rw [alistGet_alistSet]
                  simp
                rw [removeTag_dict config _ (alistDel d k) k htags2 hkv hk0]
                simp [alistHas_alistDel]
              · refine removeTag_unchanged_idem config ctx ?_
                rw [removeTag_dict config ctx d k htags hkv hk0]
                simp [hhas]
            all_goals
              exact removeTag_unchanged_idem config ctx
                (removeTag_dict_nonstr config ctx d htags
                  (fun s h => by rw [hkv] at h; exact Value.noConfusion h) hkey)
        | str s => simp [tagsWF, htags] at hTags
        | boolV b => simp [tagsWF, htags] at hTags
        | intV n => simp [tagsWF, htags] at hTags
        | noneV => simp [tagsWF, htags] at hTags
        | list l => simp [tagsWF, htags] at hTags
    · refine removeTag_unchanged_idem config ctx ?_
      unfold removeTagExecute
      rw [if_pos (by simp [hkey])]
  · -- remove_tag is a no-op success on an absent key
    intro k hk hk0 habs
    rcases htags : alistGet ctx.entity "tags" with _ | tv
    · unfold removeTagExecute
      rw [hk]
      rw [if_neg (by simp [pyTruthy, hk0])]
      rw [htags]
      simp [Value.pyStr]
    · rw [htags] at habs
      cases tv with
      | dict d =>
          simp only at habs
          rw [removeTag_dict config ctx d k htags hk hk0]
          simp [habs]
      | str s => exact habs.elim
      | boolV b => exact habs.elim
      | intV n => exact habs.elim
      | noneV => exact habs.elim
      | list l => exact habs.elim

/-- Closed instance of C9: assigning `env=prod` twice, and removing the
absent key `env`, on the concrete context. -/
theorem C9_witness :
    ((assignTagExecute envNoop [("key", .str "env"), ("value", .str "prod")]
        { ctx0 with entity := (assignTagExecute envNoop
            [("key", .str "env"), ("value", .str "prod")] ctx0).2 }).2 =
      (assignTagExecute envNoop
        [("key", .str "env"), ("value", .str "prod")] ctx0).2) ∧
    ((removeTagExecute [("key", .str "env")]
        { ctx0 with entity := (removeTagExecute [("key", .str "env")] ctx0).2 }).2 =
      (removeTagExecute [("key", .str "env")] ctx0).2) ∧
    removeTagExecute [("key", .str "env")] ctx0 =
      ({ passed := true, message := some ("Removed tag " ++ "env"),
         data := some (.dict [("key", .str "env")]) }, ctx0.entity) := by
  have h1 := C9_tag_idempotence envNoop
    [("key", .str "env"), ("value", .str "prod")] ctx0 (by trivial)
  have h2 := C9_tag_idempotence envNoop [("key", .str "env")] ctx0 (by trivial)
  exact ⟨h1.1, h2.2.1, h2.2.2 "env" rfl (by decide) (by trivial)⟩

/-! ## Heap lemmas and C6 -/

theorem heapGet_heapSet_ne (h : Heap) (x c : Nat)
    (dn : List (String × PyVal)) (hne : c ≠ x) :
    heapGet (heapSet h x dn) c = heapGet h c := by
  unfold heapGet heapSet
  dsimp only
  simp only [List.find?_map]
  have hpred : ((fun q : Nat × List (String × PyVal) => decide (q.1 = c)) ∘
        (fun p => if p.1 = x then (x, dn) else p)) =
      fun p : Nat × List (String × PyVal) => decide (p.1 = c) := by
    funext p
    by_cases hp : p.1 = x <;> simp [hp]
  rw [hpred, Option.map_map]
  rcases hfind : h.cells.find? (fun p => decide (p.1 = c)) with _ | r
  · rw [hfind]
    rfl
  · rw [hfind]
    have hr : r.1 = c := by simpa using List.find?_some hfind
    have hrx : ¬ r.1 = x := by rw [hr]; exact hne
    simp [hrx]

theorem heapGet_heapSet_self (h : Heap) (x : Nat)
    (dx dn : List (String × PyVal)) (hx : heapGet h x = some dx) :
    heapGet (heapSet h x dn) x = some dn := by
  unfold heapGet heapSet
  unfold heapGet at hx
  dsimp only
  simp only [List.find?_map]
  have hpred : ((fun q : Nat × List (String × PyVal) => decide (q.1 = x)) ∘
        (fun p => if p.1 = x then (x, dn) else p)) =
      fun p : Nat × List (String × PyVal) => decide (p.1 = x) := by
    funext p
    by_cases hp : p.1 = x <;> simp [hp]
  rw [hpred, Option.map_map]
  rcases hfind : h.cells.find? (fun p => decide (p.1 = x)) with _ | p0
  · rw [hfind] at hx
    cases hx
  · rw [hfind]
    have hp0 : p0.1 = x := by simpa using List.find?_some hfind
    simp [hp0]

theorem heapGet_heapAlloc_ne (h : Heap) (dn : List (String × PyVal))
    (c : Nat) (hne : c ≠ h.nextAddr) :
    heapGet (heapAlloc h dn).1 c = heapGet h c := by
  unfold heapGet heapAlloc
  dsimp only
  rw [List.find?_append, List.find?_singleton]
  have hkv : (decide ((h.nextAddr, dn).1 = c)) = false :=
    decide_eq_false (fun he => hne he.symm)
  rw [hkv]
  simp

theorem heapGet_heapAlloc_self (h : Heap) (dn : List (String × PyVal))
    (hfree : ∀ p ∈ h.cells, p.1 ≠ h.nextAddr) :
    heapGet (heapAlloc h dn).1 h.nextAddr = some dn := by
  unfold heapGet heapAlloc
  dsimp only
  rw [List.find?_append, List.find?_singleton]
  have hfn : h.cells.find? (fun p => decide (p.1 = h.nextAddr)) = none := by
    rw [List.find?_eq_none]
    intro p hp
    simpa using hfree p hp
  rw [hfn]
  simp

theorem heapGet_mem (h : Heap) (a : Nat) (d : List (String × PyVal))
    (hget : heapGet h a = some d) : (a, d) ∈ h.cells := by
  unfold heapGet at hget
  rcases hfind : h.cells.find? (fun p => decide (p.1 = a)) with _ | p0
  · rw [hfind] at hget
    cases hget
  · rw [hfind] at hget
    have h1 : p0.1 = a := by simpa using List.find?_some hfind
    have h2 : p0.2 = d := by simpa using hget
    have h3 := List.mem_of_find?_eq_some hfind
    rw [← h1, ← h2]
    simpa using h3

theorem pdictGet_mem (d : List (String × PyVal)) (k : String) (v : PyVal)
    (hget : pdictGet d k = some v) : (k, v) ∈ d := by
  unfold pdictGet at hget
  rcases hfind : d.find? (fun p => decide (p.1 = k)) with _ | p0
  · rw [hfind] at hget
    cases hget
  · rw [hfind] at hget
    have h1 : p0.1 = k := by simpa using List.find?_some hfind
    have h2 : p0.2 = v := by simpa using hget
    have h3 := List.mem_of_find?_eq_some hfind
    rw [← h1, ← h2]
    simpa using h3

/-- A caller entity at address 0 that already owns a (shared) `tags`
dict at address 1. -/
def heap0 : Heap :=
  { cells := [(0, [("tags", PyVal.ref 1)]), (1, [])], nextAddr := 2 }

/-- The heap after `execute_workflow` copies the entity shallowly and an
`assign_tag` step writes `env=prod`. -/
def heap0run : Heap :=
  assignTagHeap (dictCopyShallow heap0 0).1 (dictCopyShallow heap0 0).2
    "env" (.str "prod")

/-- Counterexample to C6 as stated: `entity.copy()` is shallow, so after
an `assign_tag` step the caller's own nested `tags` dict (cell 1, which
the caller's mapping references) has gained the tag — the handler
mutation is visible in the caller's mapping. -/
theorem C6_counterexample :
    heapGet heap0 1 = some [] ∧
    heapGet heap0run 1 = some [("env", PyVal.str "prod")] ∧
    heapGet heap0run 1 ≠ heapGet heap0 1 :=
  ⟨rfl, rfl, by decide⟩

/-- C6 (amended): the context entity is a shallow copy of the caller's
mapping.  When the caller's entity has no `tags` entry, or a non-dict
one, no caller-visible object changes — the handler writes only into
fresh cells.  But when the caller's entity already holds `tags` as a
reference to a dict, `assign_tag` writes through the shared reference:
the caller's tags dict itself gains the key, and only that cell
changes. -/
theorem C6_shallow_copy (h : Heap) (a : Nat) (d : List (String × PyVal))
    (key : String) (v : PyVal)
    (hwf : Heap.wf h) (hget : heapGet h a = some d) :
    (pdictGet d "tags" = none →
      ∀ c, c < h.nextAddr →
        heapGet (assignTagHeap (dictCopyShallow h a).1
          (dictCopyShallow h a).2 key v) c = heapGet h c) ∧
    (∀ s, pdictGet d "tags" = some (.str s) →
      ∀ c, c < h.nextAddr →
        heapGet (assignTagHeap (dictCopyShallow h a).1
          (dictCopyShallow h a).2 key v) c = heapGet h c) ∧
    (∀ t td, pdictGet d "tags" = some (.ref t) → heapGet h t = some td →
      heapGet (assignTagHeap (dictCopyShallow h a).1
        (dictCopyShallow h a).2 key v) t = some (pdictSet td key v) ∧
      ∀ c, c < h.nextAddr → c ≠ t →
        heapGet (assignTagHeap (dictCopyShallow h a).1
          (dictCopyShallow h a).2 key v) c = heapGet h c) := by
  have hfree : ∀ p ∈ h.cells, p.1 ≠ h.nextAddr := fun p hp =>
    Nat.ne_of_lt ((hwf.2 p hp).1)
  have hcopy1 : (dictCopyShallow h a).1 = (heapAlloc h d).1 := by
    unfold dictCopyShallow
    rw [hget]
    rfl
  have hcopy2 : (dictCopyShallow h a).2 = h.nextAddr := by
    unfold dictCopyShallow heapAlloc
    rfl
  have hget1 : heapGet (dictCopyShallow h a).1 (dictCopyShallow h a).2 =
      some d := by
    rw [hcopy1, hcopy2]
    exact heapGet_heapAlloc_self h d hfree
  refine ⟨?_, ?_, ?_⟩
  · intro htag c hc
    unfold assignTagHeap
    rw [hget1]
    simp only [Option.getD_some]
    rw [htag]
    dsimp only
    have hT : (heapAlloc (dictCopyShallow h a).1 []).2 = h.nextAddr + 1 := by
      rw [hcopy1]
      rfl
    rw [hT, hcopy2]
    rw [heapGet_heapSet_ne _ _ _ _ (by omega : c ≠ h.nextAddr + 1)]
    rw [heapGet_heapSet_ne _ _ _ _ (by omega : c ≠ h.nextAddr)]
    rw [heapGet_heapAlloc_ne _ _ _ (by rw [hcopy1]; exact (by omega : c ≠ h.nextAddr + 1))]
    rw [hcopy1, heapGet_heapAlloc_ne h d c (by omega)]
  · intro s htag c hc
    unfold assignTagHeap
    rw [hget1]
    simp only [Option.getD_some]
    rw [htag]
    dsimp only
    rw [hcopy1, heapGet_heapAlloc_ne h d c (by omega)]
  · intro t td htag htd
    have hmem : (a, d) ∈ h.cells := heapGet_mem h a d hget
    have ht_mem : ("tags", PyVal.ref t) ∈ d := pdictGet_mem d "tags" (.ref t) htag
    have ht_lt : t < h.nextAddr :=
      (hwf.2 (a, d) hmem).2 ("tags", .ref t) ht_mem
    have hH1t : heapGet (dictCopyShallow h a).1 t = some td := by
      rw [hcopy1, heapGet_heapAlloc_ne h d t (Nat.ne_of_lt ht_lt)]
      exact htd
    constructor
    · unfold assignTagHeap
      rw [hget1]
      simp only [Option.getD_some]
      rw [htag]
      dsimp only
      rw [hH1t]
      simp only [Option.getD_some]
      exact heapGet_heapSet_self _ t td _ hH1t
    · intro c hc hct
      unfold assignTagHeap
      rw [hget1]
      simp only [Option.getD_some]
      rw [htag]
      dsimp only
      rw [hH1t]
      simp only [Option.getD_some]
      rw [heapGet_heapSet_ne _ _ _ _ hct]
      rw [hcopy1, heapGet_heapAlloc_ne h d c (by omega)]

/-- Closed instance of C6 (amended) on the concrete two-cell heap: the
shared tags cell gains the key; the caller's top-level cell is
untouched. -/
theorem C6_witness :
    heapGet heap0run 1 = some (pdictSet [] "env" (.str "prod")) ∧
    heapGet heap0run 0 = heapGet heap0 0 := by
  have h := C6_shallow_copy heap0 0 [("tags", PyVal.ref 1)] "env"
    (.str "prod") (by unfold Heap.wf; decide) rfl
  exact ⟨(h.2.2 1 [] rfl rfl).1, (h.2.2 1 [] rfl rfl).2 0 (by decide) (by decide)⟩
